import Mathlib

/-!
Verification of the Midi-Fy server core (src/server.js).

JavaScript numbers are modelled exactly as an inductive type `JsNum`:
finite values are exact rationals (`ℚ`), and the non-finite values NaN,
Infinity and -Infinity are separate constructors.  All arithmetic and
comparison operators used by the source are given their JavaScript
semantics on this type (NaN propagates through arithmetic and makes
every comparison false; `%` is the remainder with the sign of the
dividend, i.e. truncated division).

Strings are Lean `String`s; JavaScript truthiness of an
optional string (`undefined` or `""` are falsy) and of a number
(`0` and `NaN` are falsy) is modelled by explicit `truthy` functions.
A field that may be absent (`undefined`) is an `Option`.
-/

set_option maxRecDepth 100000

/-- A JavaScript number: an exact rational, NaN, Infinity or -Infinity. -/
inductive JsNum where
  | fin (q : ℚ)
  | nan
  | inf
  | ninf
deriving DecidableEq

namespace JsNum

/-- JavaScript `Number.isFinite`. -/
def isFinite : JsNum → Bool
  | fin _ => true
  | _ => false

/-- JavaScript truthiness of a number: `0` and `NaN` are falsy. -/
def truthy : JsNum → Bool
  | fin q => decide (q ≠ 0)
  | nan => false
  | inf => true
  | ninf => true

/-- JavaScript `+` on numbers. -/
def add : JsNum → JsNum → JsNum
  | nan, _ => nan
  | _, nan => nan
  | inf, ninf => nan
  | ninf, inf => nan
  | inf, _ => inf
  | _, inf => inf
  | ninf, _ => ninf
  | _, ninf => ninf
  | fin a, fin b => fin (a + b)

/-- JavaScript unary minus on numbers. -/
def neg : JsNum → JsNum
  | fin q => fin (-q)
  | nan => nan
  | inf => ninf
  | ninf => inf

/-- JavaScript binary `-` on numbers. -/
def sub (a b : JsNum) : JsNum := add a (neg b)

/-- JavaScript `*` on numbers. -/
def mul : JsNum → JsNum → JsNum
  | nan, _ => nan
  | _, nan => nan
  | inf, fin b => if b = 0 then nan else if 0 < b then inf else ninf
  | fin a, inf => if a = 0 then nan else if 0 < a then inf else ninf
  | ninf, fin b => if b = 0 then nan else if 0 < b then ninf else inf
  | fin a, ninf => if a = 0 then nan else if 0 < a then ninf else inf
  | inf, inf => inf
  | inf, ninf => ninf
  | ninf, inf => ninf
  | ninf, ninf => inf
  | fin a, fin b => fin (a * b)

/-- JavaScript `<=` on numbers (false whenever either side is NaN). -/
def jle : JsNum → JsNum → Bool
  | nan, _ => false
  | _, nan => false
  | ninf, _ => true
  | _, ninf => false
  | _, inf => true
  | inf, _ => false
  | fin a, fin b => decide (a ≤ b)

/-- JavaScript `<` on numbers (false whenever either side is NaN). -/
def jlt : JsNum → JsNum → Bool
  | nan, _ => false
  | _, nan => false
  | ninf, ninf => false
  | ninf, _ => true
  | _, ninf => false
  | inf, _ => false
  | _, inf => true
  | fin a, fin b => decide (a < b)

/-- JavaScript `>=` on numbers. -/
def jge (a b : JsNum) : Bool := jle b a

/-- JavaScript `>` on numbers. -/
def jgt (a b : JsNum) : Bool := jlt b a

/-- JavaScript `===` on numbers (NaN is not equal to itself). -/
def jeq : JsNum → JsNum → Bool
  | fin a, fin b => decide (a = b)
  | inf, inf => true
  | ninf, ninf => true
  | _, _ => false

end JsNum

/-- Truncation toward zero of a rational, as in JavaScript division
underlying the `%` operator. -/
def jsTrunc (q : ℚ) : ℤ := if 0 ≤ q then ⌊q⌋ else ⌈q⌉

/-- JavaScript `%` on numbers: remainder with the sign of the dividend
(`a - b * trunc(a / b)`); NaN when the dividend is not finite or the
divisor is 0 or NaN; the dividend itself when the divisor is infinite. -/
def jsMod : JsNum → JsNum → JsNum
  | .fin a, .fin b => if b = 0 then .nan else .fin (a - b * (jsTrunc (a / b) : ℚ))
  | .fin a, .inf => .fin a
  | .fin a, .ninf => .fin a
  | _, _ => .nan

/-- `const pc = (n) => ((n % 12) + 12) % 12;` from src/server.js. -/
def pc (n : JsNum) : JsNum :=
  jsMod ((jsMod n (.fin 12)).add (.fin 12)) (.fin 12)

/-- The `PITCH_CLASS` letter-name table from src/server.js, as an
association list (a JavaScript object literal used as a lookup table). -/
def PITCH_CLASS : List (String × ℤ) :=
  [("C", 0), ("C#", 1), ("Db", 1), ("D", 2), ("D#", 3), ("Eb", 3), ("E", 4),
   ("F", 5), ("F#", 6), ("Gb", 6), ("G", 7), ("G#", 8), ("Ab", 8), ("A", 9),
   ("A#", 10), ("Bb", 10), ("B", 11)]

/-- The `MODES` table from src/server.js. -/
def MODES : List (String × List ℤ) :=
  [("major", [0, 2, 4, 5, 7, 9, 11]),
   ("minor", [0, 2, 3, 5, 7, 8, 10]),
   ("dorian", [0, 2, 3, 5, 7, 9, 10]),
   ("mixolydian", [0, 2, 4, 5, 7, 9, 10])]

/-- The `major` entry of `MODES`, the fallback for unrecognized modes. -/
def MODES_major : List ℤ := [0, 2, 4, 5, 7, 9, 11]

/-- The scale object built by `buildScale`: `{ root, degrees, set }`.
The JavaScript `Set` of pitch classes is modelled as the list of its
elements (only membership is ever used). -/
structure Scale where
  root : ℤ
  degrees : List ℤ
  set : List ℤ
deriving DecidableEq

/-- `function buildScale(key, mode)` from src/server.js: looks up `key`
in `PITCH_CLASS` and `mode` (lower-cased) in `MODES`, defaulting the
degrees to major; returns null (`none`) iff the key is unrecognized.
`set` is `degrees.map(d => (root + d) % 12)`; both operands are
non-negative so the JavaScript `%` agrees with `Int.emod`. -/
def buildScale (key mode : String) : Option Scale :=
  match List.lookup key PITCH_CLASS with
  | none => none
  | some root =>
      let degrees := (List.lookup mode.toLower MODES).getD MODES_major
      some { root := root, degrees := degrees,
             set := degrees.map (fun d => (root + d) % 12) }

/-- JavaScript `Set.has` applied to the pitch-class set: a finite value
is a member iff it equals one of the integer elements; NaN (from `pc`
of a non-finite number) is never a member. -/
def setHas (set : List ℤ) : JsNum → Bool
  | .fin q => set.any (fun z => decide ((z : ℚ) = q))
  | _ => false

/-- `function inScale(p, scaleSet)` from src/server.js. -/
def inScale (p : JsNum) (scaleSet : Option Scale) : Bool :=
  match scaleSet with
  | none => true
  | some sc => setHas sc.set (pc p)

/-- The `for (let d = 1; d <= 6; d++)` search of `nearestInScale`,
checking `p - d` before `p + d` at each distance. -/
def nearLoop (p : JsNum) (sc : Scale) : List ℕ → JsNum
  | [] => p
  | d :: ds =>
      if setHas sc.set (pc (p.sub (.fin (d : ℚ)))) then p.sub (.fin (d : ℚ))
      else if setHas sc.set (pc (p.add (.fin (d : ℚ)))) then p.add (.fin (d : ℚ))
      else nearLoop p sc ds

/-- `function nearestInScale(p, scaleSet)` from src/server.js. -/
def nearestInScale (p : JsNum) (scaleSet : Option Scale) : JsNum :=
  match scaleSet with
  | none => p
  | some sc =>
      if inScale p (some sc) then p
      else nearLoop p sc [1, 2, 3, 4, 5, 6]

/-! ## JSON values and `JSON.parse`

`extractJson` in src/server.js calls the JavaScript `JSON.parse`.  That
function is part of the language runtime, not of the repository; it is
modelled here by a strict recursive-descent parser of the JSON grammar
(it accepts a single JSON value, with JSON whitespace, and rejects any
trailing non-whitespace content, as `JSON.parse` does).  Numbers are
kept as exact rationals. -/

/-- A parsed JSON value. -/
inductive Json where
  | null
  | bool (b : Bool)
  | num (q : ℚ)
  | str (s : String)
  | arr (elems : List Json)
  | obj (fields : List (String × Json))

/-- Drop leading JSON whitespace (space, tab, line feed, carriage return). -/
def skipWs : List Char → List Char
  | c :: rest =>
      if c = ' ' ∨ c = '\t' ∨ c = '\n' ∨ c = '\r' then skipWs rest else c :: rest
  | [] => []

/-- Decimal digit test. -/
def isDig (c : Char) : Bool := decide ('0' ≤ c) && decide (c ≤ '9')

/-- Split a maximal run of leading digits from the rest. -/
def takeDigits : List Char → List Char × List Char
  | c :: rest =>
      if isDig c then
        let pr := takeDigits rest
        (c :: pr.1, pr.2)
      else ([], c :: rest)
  | [] => ([], [])

/-- Value of a digit string. -/
def digitsToNat (ds : List Char) : ℕ :=
  ds.foldl (fun acc c => acc * 10 + (c.toNat - 48)) 0

/-- Value of a hexadecimal digit, if any. -/
def hexVal (c : Char) : Option ℕ :=
  if isDig c then some (c.toNat - 48)
  else if decide ('a' ≤ c) && decide (c ≤ 'f') then some (c.toNat - 87)
  else if decide ('A' ≤ c) && decide (c ≤ 'F') then some (c.toNat - 55)
  else none

/-- Parse the optional fraction part `.digits`; returns
(fraction digits, rest). -/
def parseFrac : List Char → List Char × List Char
  | '.' :: rest =>
      let pr := takeDigits rest
      if pr.1 = [] then ([], '.' :: rest) else (pr.1, pr.2)
  | cs => ([], cs)

/-- Parse the optional exponent part `e|E [+|-] digits`; returns
(exponent, rest). -/
def parseExp (cs : List Char) : ℤ × List Char :=
  match cs with
  | e :: rest =>
      if e = 'e' ∨ e = 'E' then
        match rest with
        | '+' :: r2 =>
            let pr := takeDigits r2
            if pr.1 = [] then (0, cs) else ((digitsToNat pr.1 : ℤ), pr.2)
        | '-' :: r2 =>
            let pr := takeDigits r2
            if pr.1 = [] then (0, cs) else (-(digitsToNat pr.1 : ℤ), pr.2)
        | r2 =>
            let pr := takeDigits r2
            if pr.1 = [] then (0, cs) else ((digitsToNat pr.1 : ℤ), pr.2)
      else (0, cs)
  | [] => (0, cs)

/-- Parse a JSON number: `-? (0 | [1-9][0-9]*) frac? exp?` (leading
zeros are rejected, as by `JSON.parse`). -/
def parseNum (cs : List Char) : Option (Json × List Char) :=
  let sgn : ℤ × List Char := match cs with
    | '-' :: r => (-1, r)
    | _ => (1, cs)
  match takeDigits sgn.2 with
  | ([], _) => none
  | (d :: ds, rest) =>
      if d = '0' ∧ ds ≠ [] then none
      else
        let intPart : ℕ := digitsToNat (d :: ds)
        let fr := parseFrac rest
        let ex := parseExp fr.2
        let mantissa : ℤ :=
          sgn.1 * ((intPart : ℤ) * (10 : ℤ) ^ fr.1.length + (digitsToNat fr.1 : ℤ))
        some (.num ((mantissa : ℚ) * (10 : ℚ) ^ (ex.1 - (fr.1.length : ℤ))), ex.2)

/-- Parse the body of a JSON string after the opening quote; returns
(content, rest after the closing quote).  Handles the JSON escapes and
rejects raw control characters, as `JSON.parse` does. -/
def parseStrAux : List Char → Option (List Char × List Char)
  | [] => none
  | '"' :: rest => some ([], rest)
  | '\\' :: e :: rest =>
      if e = 'u' then
        match rest with
        | h1 :: h2 :: h3 :: h4 :: r2 =>
            match hexVal h1, hexVal h2, hexVal h3, hexVal h4 with
            | some a, some b, some c, some d =>
                (parseStrAux r2).map
                  (fun pr => (Char.ofNat (((a * 16 + b) * 16 + c) * 16 + d) :: pr.1, pr.2))
            | _, _, _, _ => none
        | _ => none
      else
        let esc : Option Char :=
          if e = '"' then some '"'
          else if e = '\\' then some '\\'
          else if e = '/' then some '/'
          else if e = 'b' then some (Char.ofNat 8)
          else if e = 'f' then some (Char.ofNat 12)
          else if e = 'n' then some '\n'
          else if e = 'r' then some '\r'
          else if e = 't' then some '\t'
          else none
        match esc with
        | some c => (parseStrAux rest).map (fun pr => (c :: pr.1, pr.2))
        | none => none
  | c :: rest =>
      if c.toNat < 32 then none
      else (parseStrAux rest).map (fun pr => (c :: pr.1, pr.2))

mutual

/-- Parse one JSON value (fuelled recursion; the fuel is spent on each
nesting level and on each array element / object field). -/
def parseVal : ℕ → List Char → Option (Json × List Char)
  | 0, _ => none
  | fuel + 1, cs =>
      match skipWs cs with
      | 'n' :: 'u' :: 'l' :: 'l' :: rest => some (.null, rest)
      | 't' :: 'r' :: 'u' :: 'e' :: rest => some (.bool true, rest)
      | 'f' :: 'a' :: 'l' :: 's' :: 'e' :: rest => some (.bool false, rest)
      | '"' :: rest =>
          (parseStrAux rest).map (fun pr => (.str (String.mk pr.1), pr.2))
      | '[' :: rest =>
          (match skipWs rest with
           | ']' :: r2 => some (.arr [], r2)
           | _ => (parseItems fuel rest).map (fun pr => (.arr pr.1, pr.2)))
      | '{' :: rest =>
          (match skipWs rest with
           | '}' :: r2 => some (.obj [], r2)
           | _ => (parseFields fuel rest).map (fun pr => (.obj pr.1, pr.2)))
      | rest => parseNum rest

/-- Parse a non-empty comma-separated list of array elements and the
closing bracket. -/
def parseItems : ℕ → List Char → Option (List Json × List Char)
  | 0, _ => none
  | fuel + 1, cs =>
      match parseVal fuel cs with
      | none => none
      | some (v, rest) =>
          match skipWs rest with
          | ',' :: r2 => (parseItems fuel r2).map (fun pr => (v :: pr.1, pr.2))
          | ']' :: r2 => some ([v], r2)
          | _ => none

/-- Parse a non-empty comma-separated list of object fields and the
closing brace. -/
def parseFields : ℕ → List Char → Option (List (String × Json) × List Char)
  | 0, _ => none
  | fuel + 1, cs =>
      match skipWs cs with
      | '"' :: rest =>
          match parseStrAux rest with
          | none => none
          | some (name, r1) =>
              match skipWs r1 with
              | ':' :: r2 =>
                  (match parseVal fuel r2 with
                   | none => none
                   | some (v, r3) =>
                       match skipWs r3 with
                       | ',' :: r4 =>
                           (parseFields fuel r4).map
                             (fun pr => ((String.mk name, v) :: pr.1, pr.2))
                       | '}' :: r4 => some ([(String.mk name, v)], r4)
                       | _ => none)
              | _ => none
      | _ => none

end

/-- The model of JavaScript `JSON.parse`: parse one value and require
that only whitespace remains. -/
def jsonParse (s : String) : Option Json :=
  match parseVal (s.length + 1) s.data with
  | some (v, rest) => if skipWs rest = [] then some v else none
  | none => none

/-! ## `extractJson` (src/server.js lines 73-103) -/

/-- Result of `extractJson`: a parsed value or a thrown `Error` message. -/
inductive ExtractResult where
  | ok (j : Json)
  | err (msg : String)

/-- The code-fence stripping `text.replace(/```(?:json)?/gi, '')`: every
occurrence of three backticks, optionally followed immediately by
`json` in any letter case, is removed. -/
def stripFencesAux : List Char → List Char
  | a :: b :: c :: c1 :: c2 :: c3 :: c4 :: rest =>
      if a = Char.ofNat 96 ∧ b = Char.ofNat 96 ∧ c = Char.ofNat 96 then
        if c1.toLower = 'j' ∧ c2.toLower = 's' ∧ c3.toLower = 'o' ∧ c4.toLower = 'n'
        then stripFencesAux rest
        else stripFencesAux (c1 :: c2 :: c3 :: c4 :: rest)
      else a :: stripFencesAux (b :: c :: c1 :: c2 :: c3 :: c4 :: rest)
  | a :: b :: c :: rest =>
      if a = Char.ofNat 96 ∧ b = Char.ofNat 96 ∧ c = Char.ofNat 96 then stripFencesAux rest
      else a :: stripFencesAux (b :: c :: rest)
  | a :: rest => a :: stripFencesAux rest
  | [] => []
termination_by cs => cs.length
decreasing_by all_goals simp <;> omega

/-- Strip code fences and trim, as in lines 75-76 of src/server.js. -/
def stripFences (s : String) : String := (String.mk (stripFencesAux s.data)).trim

/-- `text.indexOf(c)`, as an `Option` instead of `-1`. -/
def firstIdx (c : Char) : List Char → Option ℕ
  | [] => none
  | x :: rest => if x = c then some 0 else (firstIdx c rest).map (· + 1)

/-- `text.lastIndexOf(c)`, as an `Option` instead of `-1`. -/
def lastIdx (c : Char) (cs : List Char) : Option ℕ :=
  (firstIdx c cs.reverse).map (fun i => cs.length - 1 - i)

/-- Strategy 2 of `extractJson`: if both a first `{` and a last `}`
exist and the latter is strictly further right, try to parse the slice
between them (inclusive). -/
def sliceStrategy (cs : List Char) : Option Json :=
  match firstIdx '{' cs, lastIdx '}' cs with
  | some first, some last =>
      if first < last then jsonParse (String.mk ((cs.drop first).take (last + 1 - first)))
      else none
  | _, _ => none

/-- Strategy 3 of `extractJson`: the left-to-right scan of lines 90-101.
`depth` is incremented at `{` and decremented at `}`; `start` is set at
a `{` seen at depth 0; when a `}` brings the depth back to 0 and a
start has been recorded, the block from `start` to the current index is
parsed, the first success being returned. -/
def scanLoop (full : List Char) : List Char → ℕ → ℤ → Option ℕ → Option Json
  | [], _, _, _ => none
  | c :: rest, i, depth, start =>
      if c = '{' then
        scanLoop full rest (i + 1) (depth + 1) (if depth = 0 then some i else start)
      else if c = '}' then
        match start with
        | some s =>
            if depth - 1 = 0 then
              match jsonParse (String.mk ((full.drop s).take (i + 1 - s))) with
              | some v => some v
              | none => scanLoop full rest (i + 1) (depth - 1) (some s)
            else scanLoop full rest (i + 1) (depth - 1) (some s)
        | none => scanLoop full rest (i + 1) (depth - 1) none
      else scanLoop full rest (i + 1) depth start

/-- `function extractJson(text)` from src/server.js.  The only
non-string input the route can pass is `undefined` (when the model
reply has no text parts the joined string is `""`, which is also
caught by the same falsiness test), so the input is modelled as the
string itself; `text = ""` is the `!text` case. -/
def extractJson (text : String) : ExtractResult :=
  if text = "" then .err "Empty response"
  else
    let t := stripFences text
    match jsonParse t with
    | some v => .ok v
    | none =>
        match sliceStrategy t.data with
        | some v => .ok v
        | none =>
            match scanLoop t.data t.data 0 0 none with
            | some v => .ok v
            | none => .err "No valid JSON found"

/-! ## The `/compose` route (src/server.js lines 106-233)

The route is modelled from the point where a candidate document `data`
has been obtained from `extractJson` (the network transport, prompt
construction and the generative-model calls are outside the verified
core).  Candidate fields that may be absent (`undefined`) are
`Option`s; `notes` is `some` list exactly when `Array.isArray` holds.
String-valued candidate fields that arrive as other JSON types are out
of scope of the claims and are not modelled.  The numeric field
`length_bars` is modelled by the JavaScript number it converts to
under `Number(...)` (for a non-numeric string that is NaN, covered by
`JsNum.nan`; `Number(undefined)` is NaN, produced by `toNumber none`). -/

/-- Truthiness of a possibly-absent string: `undefined` and `""` are falsy. -/
def truthyS : Option String → Bool
  | none => false
  | some s => decide (s ≠ "")

/-- JavaScript `a || b` on possibly-absent strings. -/
def jsOrS (a b : Option String) : Option String := if truthyS a then a else b

/-- JavaScript `a || b` on numbers. -/
def jsOr (a b : JsNum) : JsNum := if a.truthy then a else b

/-- `Number(x)` for a possibly-absent number: `Number(undefined)` is NaN. -/
def toNumber : Option JsNum → JsNum
  | none => .nan
  | some j => j

/-- A note object of the candidate document, with the source's field
names: `tb` (start beat), `db` (duration), `p` (pitch), `v` (velocity). -/
structure Note where
  tb : JsNum
  db : JsNum
  p : JsNum
  v : JsNum
deriving DecidableEq

/-- The candidate/output document of the route.  `notes = some l` iff
`Array.isArray(data.notes)`; `snapped_info` is the `_snapped_info`
field attached on snapping. -/
structure Doc where
  time_signature : Option String
  length_bars : Option JsNum
  clip_type : Option String
  key : Option String
  mode : Option String
  instrument : Option String
  notes : Option (List Note)
  snapped_info : Option (ℕ × String)
deriving DecidableEq

/-- The request body fields used by the validation pipeline
(`feel` and `text` only influence the prompt). -/
structure Req where
  clipType : Option String
  bars : Option JsNum
  key : Option String
  mode : Option String
deriving DecidableEq

/-- Result of the route: a JSON success document or a 400 failure. -/
inductive ComposeResult where
  | ok (doc : Doc)
  | schemaMissingFields
  | outOfScale (count : ℕ) (key mode : Option String)
deriving DecidableEq

/-- `const barsNum = Number(bars) || 8;` (line 109). -/
def reqBarsNum (req : Req) : JsNum := jsOr (toNumber req.bars) (.fin 8)

/-- The schema check of line 176: `notes` an array, `time_signature`
truthy, `length_bars` not null/undefined. -/
def schemaOk (d : Doc) : Bool :=
  d.notes.isSome && truthyS d.time_signature && d.length_bars.isSome

/-- `const beatsPerBar = (data.time_signature &&
data.time_signature.startsWith('3/')) ? 3 : 4;` (line 181). -/
def beatsPerBar (ts : Option String) : ℤ :=
  if truthyS ts && (match ts with | some s => s.startsWith "3/" | none => false)
  then 3 else 4

/-- `const totalBeats = (Number(data.length_bars) || barsNum) * beatsPerBar;`
(line 182), computed from the candidate fields before defaulting. -/
def totalBeatsOf (req : Req) (d : Doc) : JsNum :=
  (jsOr (toNumber d.length_bars) (reqBarsNum req)).mul
    (.fin ((beatsPerBar d.time_signature : ℤ) : ℚ))

/-- The defaulting assignments of lines 184-188. -/
def applyDefaults (req : Req) (barsNum : JsNum) (d : Doc) : Doc :=
  { d with
    clip_type := jsOrS req.clipType (jsOrS d.clip_type (some "chords")),
    length_bars := some (jsOr (toNumber d.length_bars) barsNum),
    time_signature := jsOrS d.time_signature (some "4/4"),
    key := if truthyS req.key && !truthyS d.key then req.key else d.key,
    mode := if truthyS req.mode && !truthyS d.mode then req.mode else d.mode }

/-- The document after the defaulting step of lines 184-188. -/
def defaultedDoc (req : Req) (d : Doc) : Doc := applyDefaults req (reqBarsNum req) d

/-- The note filter predicate of lines 190-195. -/
def noteOk (totalBeats : JsNum) (n : Note) : Bool :=
  n.tb.isFinite && n.tb.jge (.fin 0) &&
  n.db.isFinite && n.db.jgt (.fin 0) &&
  n.p.isFinite && n.p.jge (.fin 0) && n.p.jle (.fin 127) &&
  (n.tb.add n.db).jle totalBeats

/-- The filtered note list of lines 190-195 (defaulting does not touch
`notes`, so the filter applies to the candidate's notes). -/
def clampNotes (req : Req) (d : Doc) : List Note :=
  ((defaultedDoc req d).notes.getD []).filter (noteOk (totalBeatsOf req d))

/-- `const scaleSet = (data.key && data.mode) ? buildScale(data.key,
data.mode) : null;` (line 198), on the defaulted document. -/
def scaleOf (req : Req) (d : Doc) : Option Scale :=
  let d1 := defaultedDoc req d
  if truthyS d1.key && truthyS d1.mode then buildScale (d1.key.getD "") (d1.mode.getD "")
  else none

/-- The snap branch of lines 201-207: map each note, replacing an
out-of-scale pitch by `nearestInScale` and counting the notes whose
pitch value actually changed (`p2 !== n.p`). -/
def snapNotes (sc : Scale) : List Note → List Note × ℕ
  | [] => ([], 0)
  | n :: ns =>
      let rest := snapNotes sc ns
      if inScale n.p (some sc) then (n :: rest.1, rest.2)
      else
        let p2 := nearestInScale n.p (some sc)
        if p2.jeq n.p then ({ n with p := p2 } :: rest.1, rest.2)
        else ({ n with p := p2 } :: rest.1, rest.2 + 1)

/-- The `/compose` route from the schema check on (lines 176-219),
with the two policy flags `SNAP_TO_SCALE` and `STRICT_SCALE` passed
explicitly.  The snap branch is taken when `SNAP_TO_SCALE` is set and
a scale resolved; otherwise the strict branch when `STRICT_SCALE` is
set and a scale resolved; `_snapped_info` is attached iff the snapped
count is positive. -/
def composeStep (SNAP_TO_SCALE STRICT_SCALE : Bool) (req : Req) (data : Doc) :
    ComposeResult :=
  if !schemaOk data then .schemaMissingFields
  else
    let d1 := defaultedDoc req data
    let kept := clampNotes req data
    let d2 := { d1 with notes := some kept }
    match scaleOf req data with
    | none => .ok d2
    | some sc =>
        if SNAP_TO_SCALE then
          let pr := snapNotes sc kept
          let d3 := { d2 with notes := some pr.1 }
          if 0 < pr.2 then .ok { d3 with snapped_info := some (pr.2, "snap_to_scale") }
          else .ok d3
        else if STRICT_SCALE then
          let bad := kept.filter (fun n => !inScale n.p (some sc))
          if bad.length ≠ 0 then .outOfScale bad.length d1.key d1.mode
          else .ok d2
        else .ok d2

/-- A convenient concrete request: everything absent. -/
def emptyReq : Req := { clipType := none, bars := none, key := none, mode := none }

/-- The C-major scale object, as `buildScale "C" "major"` produces it. -/
def scCmaj : Scale :=
  { root := 0, degrees := [0, 2, 4, 5, 7, 9, 11], set := [0, 2, 4, 5, 7, 9, 11] }

/-- Candidate document for the pitch-range failing input: key D major,
one valid note of pitch 0 (out of the D-major scale). -/
def docC1 : Doc :=
  { time_signature := some "4/4", length_bars := some (.fin 4),
    clip_type := some "chords", key := some "D", mode := some "major",
    instrument := none,
    notes := some [{ tb := .fin 0, db := .fin 1, p := .fin 0, v := .fin 1 }],
    snapped_info := none }

/-- A request that supplies `clipType: "lead"` and nothing else. -/
def reqLead : Req := { clipType := some "lead", bars := none, key := none, mode := none }

/-- A candidate document that already supplies `clip_type: "bass"`. -/
def docBass : Doc :=
  { time_signature := some "4/4", length_bars := some (.fin 4),
    clip_type := some "bass", key := none, mode := none, instrument := none,
    notes := some [], snapped_info := none }

/-- A candidate document with a negative `length_bars`. -/
def docNeg : Doc :=
  { time_signature := some "4/4", length_bars := some (.fin (-3)),
    clip_type := some "chords", key := none, mode := none, instrument := none,
    notes := some [], snapped_info := none }

/-- A candidate document in key C with the unrecognized mode
`phrygian` and one note of pitch class 1. -/
def docPhry : Doc :=
  { time_signature := some "4/4", length_bars := some (.fin 1),
    clip_type := some "chords", key := some "C", mode := some "phrygian",
    instrument := none,
    notes := some [{ tb := .fin 0, db := .fin 1, p := .fin 1, v := .fin 1 }],
    snapped_info := none }

/-- A candidate document in C major containing exactly one note, of
pitch 61 (pitch class 1, i.e. C#). -/
def docCsharp : Doc :=
  { time_signature := some "4/4", length_bars := some (.fin 4),
    clip_type := some "chords", key := some "C", mode := some "major",
    instrument := none,
    notes := some [{ tb := .fin 0, db := .fin 1, p := .fin 61, v := .fin 1 }],
    snapped_info := none }

/-- A temporally valid note whose pitch 200 exceeds 127. -/
def noteBig : Note := { tb := .fin 0, db := .fin 1, p := .fin 200, v := .fin 1 }

/-- The spec example note `startBeat 15, durationBeats 2`. -/
def note15_2 : Note := { tb := .fin 15, db := .fin 2, p := .fin 60, v := .fin 1 }

/-- The spec example note `startBeat 15, durationBeats 1`. -/
def note15_1 : Note := { tb := .fin 15, db := .fin 1, p := .fin 60, v := .fin 1 }

/-- A single C#-pitched note (pitch 61). -/
def note61 : Note := { tb := .fin 0, db := .fin 1, p := .fin 61, v := .fin 1 }

/-! ## Arithmetic bridge: `pc` on integer pitches -/

lemma jsTrunc_intCast_div_twelve (k : ℤ) : jsTrunc ((k : ℚ) / 12) = k.tdiv 12 := by
  have h12 : ((12 : ℕ) : ℚ) = (12 : ℚ) := by norm_num
  unfold jsTrunc
  rcases le_or_lt 0 k with hk | hk
  · have hkq : (0 : ℚ) ≤ (k : ℚ) := by exact_mod_cast hk
    have h0 : (0 : ℚ) ≤ (k : ℚ) / 12 := by positivity
    rw [if_pos h0, show ((k : ℚ) / 12) = ((k : ℚ) / ((12 : ℕ) : ℚ)) from by rw [h12],
      Rat.floor_intCast_div_natCast k 12, Int.tdiv_eq_ediv hk (by norm_num)]
    norm_num
  · have hkq : (k : ℚ) < 0 := by exact_mod_cast hk
    have h0 : ¬ (0 : ℚ) ≤ (k : ℚ) / 12 := by
      rw [not_le]
      exact div_neg_of_neg_of_pos hkq (by norm_num)
    rw [if_neg h0]
    have hsplit : (k : ℚ) / 12 = -(((-k : ℤ) : ℚ) / ((12 : ℕ) : ℚ)) := by
      push_cast
      ring
    rw [hsplit, Int.ceil_neg, Rat.floor_intCast_div_natCast (-k) 12,
      ← Int.tdiv_eq_ediv (by omega : (0:ℤ) ≤ -k) (by norm_num), Int.neg_tdiv, neg_neg]
    norm_num

lemma jsMod_fin_intCast (k : ℤ) :
    jsMod (.fin (k : ℚ)) (.fin 12) = .fin ((k.tmod 12 : ℤ) : ℚ) := by
  have h := Int.tmod_add_tdiv k 12
  simp only [jsMod, if_neg (by norm_num : ¬ (12 : ℚ) = 0)]
  rw [jsTrunc_intCast_div_twelve]
  congr 1
  have : (k.tmod 12 : ℤ) = k - 12 * k.tdiv 12 := by linarith
  rw [this]
  push_cast
  ring

lemma neg_tmod_twelve (k : ℤ) : (-k).tmod 12 = -(k.tmod 12) := by
  have h1 := Int.tmod_add_tdiv k 12
  have h2 := Int.tmod_add_tdiv (-k) 12
  rw [Int.neg_tdiv, mul_neg] at h2
  linarith

lemma tmod_plus_twelve (k : ℤ) : (k.tmod 12 + 12).tmod 12 = k % 12 := by
  have h1 := Int.tmod_add_tdiv k 12
  have hub := Int.tmod_lt_of_pos k (b := 12) (by norm_num)
  have hlb : -12 < k.tmod 12 := by
    rcases le_or_lt 0 k with hk | hk
    · have := Int.tmod_nonneg (a := k) 12 hk
      omega
    · have h3 := neg_tmod_twelve k
      have h4 := Int.tmod_lt_of_pos (-k) (b := 12) (by norm_num)
      omega
  rw [Int.tmod_eq_emod (by omega) (by norm_num),
    show k.tmod 12 = k - 12 * k.tdiv 12 from by linarith]
  omega

lemma pc_fin_intCast (k : ℤ) : pc (.fin (k : ℚ)) = .fin (((k % 12 : ℤ)) : ℚ) := by
  unfold pc
  rw [jsMod_fin_intCast]
  have hadd : (JsNum.fin ((k.tmod 12 : ℤ) : ℚ)).add (.fin 12) =
      .fin (((k.tmod 12 + 12 : ℤ)) : ℚ) := by
    simp only [JsNum.add]
    congr 1
    push_cast
    ring
  rw [hadd, jsMod_fin_intCast, tmod_plus_twelve]

lemma setHas_intCast (set : List ℤ) (m : ℤ) :
    setHas set (.fin ((m : ℤ) : ℚ)) = true ↔ m ∈ set := by
  simp only [setHas, List.any_eq_true, decide_eq_true_eq]
  constructor
  · rintro ⟨z, hz, he⟩
    have : z = m := by exact_mod_cast he
    rwa [this] at hz
  · intro h
    exact ⟨m, h, rfl⟩

lemma inScale_intCast (k : ℤ) (sc : Scale) :
    inScale (.fin (k : ℚ)) (some sc) = true ↔ k % 12 ∈ sc.set := by
  rw [show inScale (.fin (k : ℚ)) (some sc) = setHas sc.set (pc (.fin (k : ℚ))) from rfl,
    pc_fin_intCast]
  exact setHas_intCast sc.set (k % 12)

/-! ## Structure of scales built by `buildScale` -/

lemma pitch_class_root_bounds (s : String) (r : ℤ)
    (h : List.lookup s PITCH_CLASS = some r) : 0 ≤ r ∧ r < 12 := by
  simp only [PITCH_CLASS, List.lookup] at h
  repeat' split at h
  all_goals simp_all
  all_goals omega

lemma modes_lookup_cases (s : String) (ds : List ℤ)
    (h : List.lookup s MODES = some ds) :
    ds = [0, 2, 4, 5, 7, 9, 11] ∨ ds = [0, 2, 3, 5, 7, 8, 10] ∨
    ds = [0, 2, 3, 5, 7, 9, 10] ∨ ds = [0, 2, 4, 5, 7, 9, 10] := by
  simp only [List.lookup, MODES] at h
  repeat' split at h
  all_goals simp_all

lemma buildScale_some (key mode : String) (sc : Scale)
    (h : buildScale key mode = some sc) :
    (0 ≤ sc.root ∧ sc.root < 12) ∧
    (sc.degrees = [0, 2, 4, 5, 7, 9, 11] ∨ sc.degrees = [0, 2, 3, 5, 7, 8, 10] ∨
     sc.degrees = [0, 2, 3, 5, 7, 9, 10] ∨ sc.degrees = [0, 2, 4, 5, 7, 9, 10]) ∧
    sc.set = sc.degrees.map (fun d => (sc.root + d) % 12) := by
  unfold buildScale at h
  cases hk : List.lookup key PITCH_CLASS with
  | none => rw [hk] at h; exact absurd h (by simp)
  | some root =>
      rw [hk] at h
      simp only [Option.some.injEq] at h
      subst h
      refine ⟨pitch_class_root_bounds key root hk, ?_, rfl⟩
      cases hm : List.lookup mode.toLower MODES with
      | none => simp [hm, MODES_major]
      | some ds =>
          simpa [hm] using modes_lookup_cases mode.toLower ds hm

lemma gap_aux :
    ∀ rn ∈ List.range 12, ∀ xn ∈ List.range 12,
      ∀ degs ∈ [([0, 2, 4, 5, 7, 9, 11] : List ℤ), [0, 2, 3, 5, 7, 8, 10],
        [0, 2, 3, 5, 7, 9, 10], [0, 2, 4, 5, 7, 9, 10]],
      (xn : ℤ) ∉ degs.map (fun d => ((rn : ℤ) + d) % 12) →
      ((xn : ℤ) + 11) % 12 ∈ degs.map (fun d => ((rn : ℤ) + d) % 12) := by decide

/-- In every scale `buildScale` can produce, no two cyclically adjacent
pitch classes are both missing: if `k`'s class is missing then
`(k-1)`'s class is present. -/
lemma scale_gap (key mode : String) (sc : Scale) (hb : buildScale key mode = some sc)
    (k : ℤ) (h : k % 12 ∉ sc.set) : (k - 1) % 12 ∈ sc.set := by
  obtain ⟨⟨hr0, hr12⟩, hdeg, hset⟩ := buildScale_some key mode sc hb
  have hx0 : 0 ≤ k % 12 := Int.emod_nonneg k (by norm_num)
  have hx12 : k % 12 < 12 := Int.emod_lt_of_pos k (by norm_num)
  have hrn : ((sc.root.toNat : ℕ) : ℤ) = sc.root := Int.toNat_of_nonneg hr0
  have hxn : (((k % 12).toNat : ℕ) : ℤ) = k % 12 := Int.toNat_of_nonneg hx0
  have h1 : sc.root.toNat ∈ List.range 12 := by
    rw [List.mem_range]
    omega
  have h2 : (k % 12).toNat ∈ List.range 12 := by
    rw [List.mem_range]
    omega
  have h3 : sc.degrees ∈ [([0, 2, 4, 5, 7, 9, 11] : List ℤ), [0, 2, 3, 5, 7, 8, 10],
      [0, 2, 3, 5, 7, 9, 10], [0, 2, 4, 5, 7, 9, 10]] := by
    rcases hdeg with h | h | h | h <;> simp [h]
  have haux := gap_aux sc.root.toNat h1 (k % 12).toNat h2 sc.degrees h3
  rw [hrn, hxn] at haux
  rw [hset] at h
  have hmem := haux h
  have heq : (k - 1) % 12 = (k % 12 + 11) % 12 := by omega
  rw [hset, heq]
  exact hmem

/-- If a pitch is in scale, `nearestInScale` returns it unchanged. -/
lemma nearestInScale_of_inScale (p : JsNum) (s : Option Scale)
    (h : inScale p s = true) : nearestInScale p s = p := by
  cases s with
  | none => rfl
  | some sc => simp [nearestInScale, h]

/-- On an out-of-scale integer pitch, `nearestInScale` over a scale
built by `buildScale` returns `pitch - 1`, which is in scale: the first
probe of the search loop (`pc(p - 1)` at distance 1) always succeeds. -/
lemma nearestInScale_out (key mode : String) (sc : Scale)
    (hb : buildScale key mode = some sc) (k : ℤ)
    (hout : inScale (.fin (k : ℚ)) (some sc) = false) :
    nearestInScale (.fin (k : ℚ)) (some sc) = .fin ((k : ℚ) - 1) ∧
    inScale (.fin ((k : ℚ) - 1)) (some sc) = true := by
  have hnot : k % 12 ∉ sc.set := by
    intro hmem
    have := (inScale_intCast k sc).mpr hmem
    rw [hout] at this
    exact absurd this (by simp)
  have hgap : (k - 1) % 12 ∈ sc.set := scale_gap key mode sc hb k hnot
  have hcast : ((k - 1 : ℤ) : ℚ) = (k : ℚ) - 1 := by push_cast; ring
  have hin1 : inScale (.fin ((k : ℚ) - 1)) (some sc) = true := by
    rw [← hcast]
    exact (inScale_intCast (k - 1) sc).mpr hgap
  refine ⟨?_, hin1⟩
  have hsub : (JsNum.fin (k : ℚ)).sub (.fin ((1 : ℕ) : ℚ)) = .fin ((k : ℚ) - 1) := by
    simp [JsNum.sub, JsNum.neg, JsNum.add]
    ring
  have hcond : setHas sc.set (pc ((JsNum.fin (k : ℚ)).sub (.fin ((1 : ℕ) : ℚ)))) = true := by
    rw [hsub]
    simpa [inScale] using hin1
  simp only [nearestInScale, hout, Bool.false_eq_true, if_false, nearLoop, hcond, if_true]
  exact hsub

/-! ## Helpers for the snap branch -/

lemma nearLoop_fin (q : ℚ) (sc : Scale) (ds : List ℕ) :
    ∃ q' : ℚ, nearLoop (.fin q) sc ds = .fin q' := by
  induction ds with
  | nil => exact ⟨q, rfl⟩
  | cons d ds ih =>
      simp only [nearLoop]
      split
      · exact ⟨q - d, by simp [JsNum.sub, JsNum.neg, JsNum.add]; ring⟩
      · split
        · exact ⟨q + d, by simp [JsNum.add]⟩
        · exact ih

lemma nearestInScale_fin (q : ℚ) (s : Option Scale) :
    ∃ q' : ℚ, nearestInScale (.fin q) s = .fin q' := by
  cases s with
  | none => exact ⟨q, rfl⟩
  | some sc =>
      by_cases h : inScale (.fin q) (some sc) = true
      · exact ⟨q, nearestInScale_of_inScale _ _ h⟩
      · have : nearestInScale (.fin q) (some sc) = nearLoop (.fin q) sc [1, 2, 3, 4, 5, 6] := by
          simp [nearestInScale, h]
        rw [this]
        exact nearLoop_fin q sc _

lemma snapNotes_spec (sc : Scale) (notes : List Note)
    (hfin : ∀ n ∈ notes, n.p.isFinite = true) :
    (snapNotes sc notes).1.length = notes.length ∧
    (snapNotes sc notes).1.map (fun n => (n.tb, n.db, n.v)) =
      notes.map (fun n => (n.tb, n.db, n.v)) ∧
    (snapNotes sc notes).2 =
      (notes.zip (snapNotes sc notes).1).countP (fun pr => decide (pr.1.p ≠ pr.2.p)) := by
  induction notes with
  | nil => simp [snapNotes]
  | cons n ns ih =>
      have hn : n.p.isFinite = true := hfin n (by simp)
      have hns : ∀ m ∈ ns, m.p.isFinite = true := fun m hm => hfin m (by simp [hm])
      obtain ⟨hlen, hmap, hcnt⟩ := ih hns
      obtain ⟨q, hq⟩ : ∃ q, n.p = .fin q := by
        cases h : n.p <;> simp_all [JsNum.isFinite]
      by_cases hin : inScale n.p (some sc) = true
      · have hstep : snapNotes sc (n :: ns) = (n :: (snapNotes sc ns).1, (snapNotes sc ns).2) := by
          simp [snapNotes, hin]
        rw [hstep]
        refine ⟨by simp [hlen], by simp [hmap], ?_⟩
        simp only [List.zip_cons_cons, List.countP_cons]
        simp [hcnt]
      · obtain ⟨q', hq'⟩ : ∃ q', nearestInScale n.p (some sc) = .fin q' := by
          rw [hq]
          exact nearestInScale_fin q (some sc)
        have hjeq : (nearestInScale n.p (some sc)).jeq n.p = decide (q' = q) := by
          rw [hq', hq]
          rfl
        by_cases hqq : q' = q
        · have hsame : ({ n with p := nearestInScale n.p (some sc) } : Note) = n := by
            rw [hq', hqq, ← hq]
          have hstep : snapNotes sc (n :: ns) =
              (n :: (snapNotes sc ns).1, (snapNotes sc ns).2) := by
            simp only [snapNotes, hin, Bool.false_eq_true, if_false, hjeq, hsame]
            simp [hqq]
          rw [hstep]
          refine ⟨by simp [hlen], by simp [hmap], ?_⟩
          simp only [List.zip_cons_cons, List.countP_cons]
          simp [hcnt]
        · have hstep : snapNotes sc (n :: ns) =
              ({ n with p := nearestInScale n.p (some sc) } :: (snapNotes sc ns).1,
               (snapNotes sc ns).2 + 1) := by
            simp only [snapNotes, hin, Bool.false_eq_true, if_false, hjeq]
            simp [hqq]
          rw [hstep]
          refine ⟨by simp [hlen], by simp [hmap], ?_⟩
          simp only [List.zip_cons_cons, List.countP_cons]
          have hq2 : nearestInScale (JsNum.fin q) (some sc) = JsNum.fin q' := by
            rw [← hq, hq']
          have hne : n.p ≠ ({ n with p := nearestInScale n.p (some sc) } : Note).p := by
            simp only []
            rw [hq, hq2]
            simp only [ne_eq, JsNum.fin.injEq]
            exact fun hc => hqq hc.symm
          simp [hcnt, hne]

/-! ## Claim theorems -/

/-- Claim C8: for every integer pitch and every scale built by
`buildScale`, `nearestInScale` returns the pitch unchanged when it is
in scale; otherwise it returns `pitch - d` or `pitch + d` for the
smallest distance `d` in 1..6 at which a conforming value exists (in
fact always `d = 1`), prefers `pitch - d` when it conforms, and the
returned value is in scale; the search radius never exceeds 6. -/
theorem C8_nearest_search (k : ℤ) (key mode : String) (sc : Scale)
    (hb : buildScale key mode = some sc) :
    (inScale (.fin (k : ℚ)) (some sc) = true →
      nearestInScale (.fin (k : ℚ)) (some sc) = .fin (k : ℚ)) ∧
    (inScale (.fin (k : ℚ)) (some sc) = false →
      ∃ d : ℕ, 1 ≤ d ∧ d ≤ 6 ∧
        (∀ e : ℕ, 1 ≤ e → e < d →
          inScale (.fin ((k : ℚ) - (e : ℚ))) (some sc) = false ∧
          inScale (.fin ((k : ℚ) + (e : ℚ))) (some sc) = false) ∧
        (inScale (.fin ((k : ℚ) - (d : ℚ))) (some sc) = true →
          nearestInScale (.fin (k : ℚ)) (some sc) = .fin ((k : ℚ) - (d : ℚ))) ∧
        (nearestInScale (.fin (k : ℚ)) (some sc) = .fin ((k : ℚ) - (d : ℚ)) ∨
         nearestInScale (.fin (k : ℚ)) (some sc) = .fin ((k : ℚ) + (d : ℚ))) ∧
        inScale (nearestInScale (.fin (k : ℚ)) (some sc)) (some sc) = true) := by
  refine ⟨fun hin => nearestInScale_of_inScale _ _ hin, fun hout => ?_⟩
  obtain ⟨hres, hin1⟩ := nearestInScale_out key mode sc hb k hout
  have hcast : ((1 : ℕ) : ℚ) = (1 : ℚ) := by norm_num
  refine ⟨1, le_refl 1, by norm_num, ?_, ?_, ?_, ?_⟩
  · intro e he1 he2
    omega
  · intro _
    rw [hres, hcast]
  · left
    rw [hres, hcast]
  · rw [hres]
    exact hin1

/-- Witness for C8: pitch 64 is in C major, so it is returned
unchanged. -/
theorem C8_nearest_search_witness :
    nearestInScale (.fin ((64 : ℤ) : ℚ)) (some scCmaj) = .fin ((64 : ℤ) : ℚ) :=
  (C8_nearest_search 64 "C" "major" scCmaj (by with_unfolding_all decide)).1
    (by with_unfolding_all decide)

/-- Claim C9: `nearestInScale` is idempotent for every integer pitch
and every scale argument the program can pass (null, or built by
`buildScale`). -/
theorem C9_nearest_idempotent (k : ℤ) (s : Option Scale)
    (hs : s = none ∨ ∃ key mode sc, buildScale key mode = some sc ∧ s = some sc) :
    nearestInScale (nearestInScale (.fin (k : ℚ)) s) s = nearestInScale (.fin (k : ℚ)) s := by
  rcases hs with rfl | ⟨key, mode, sc, hb, rfl⟩
  · rfl
  · by_cases hin : inScale (.fin (k : ℚ)) (some sc) = true
    · rw [nearestInScale_of_inScale _ _ hin, nearestInScale_of_inScale _ _ hin]
    · have hout : inScale (.fin (k : ℚ)) (some sc) = false := by
        cases h : inScale (.fin (k : ℚ)) (some sc)
        · rfl
        · exact absurd h hin
      obtain ⟨hres, hin1⟩ := nearestInScale_out key mode sc hb k hout
      rw [hres, nearestInScale_of_inScale _ _ hin1]

/-- Witness for C9: idempotence at the out-of-scale pitch 61 in C major. -/
theorem C9_nearest_idempotent_witness :
    nearestInScale (nearestInScale (.fin ((61 : ℤ) : ℚ)) (some scCmaj)) (some scCmaj) =
      nearestInScale (.fin ((61 : ℤ) : ℚ)) (some scCmaj) :=
  C9_nearest_idempotent 61 (some scCmaj)
    (Or.inr ⟨"C", "major", scCmaj, by with_unfolding_all decide, rfl⟩)

/-- Claim C10: the snap branch preserves the number and order of notes
and each note's `tb`, `db` and `v`; only the pitch may change, and the
snapped count equals the number of notes whose pitch changed. -/
theorem C10_snap_frame (sc : Scale) (notes : List Note)
    (hfin : ∀ n ∈ notes, n.p.isFinite = true) :
    (snapNotes sc notes).1.length = notes.length ∧
    (snapNotes sc notes).1.map (fun n => (n.tb, n.db, n.v)) =
      notes.map (fun n => (n.tb, n.db, n.v)) ∧
    (snapNotes sc notes).2 =
      (notes.zip (snapNotes sc notes).1).countP (fun pr => decide (pr.1.p ≠ pr.2.p)) :=
  snapNotes_spec sc notes hfin

/-- Witness for C10: snapping the single C#-pitched note in C major. -/
theorem C10_snap_frame_witness :
    (snapNotes scCmaj [note61]).1.length = [note61].length ∧
    (snapNotes scCmaj [note61]).1.map (fun n => (n.tb, n.db, n.v)) =
      [note61].map (fun n => (n.tb, n.db, n.v)) ∧
    (snapNotes scCmaj [note61]).2 =
      ([note61].zip (snapNotes scCmaj [note61]).1).countP
        (fun pr => decide (pr.1.p ≠ pr.2.p)) :=
  C10_snap_frame scCmaj [note61] (by with_unfolding_all decide)

/-- Claim C7: under the strict policy (snap off, strict on) with a
resolved scale, if some note surviving the clamp is out of scale the
route fails with OUT_OF_SCALE, reporting the exact number of
out-of-scale notes and the defaulted document's key and mode; the
error is returned before any pitch is rewritten (the count is computed
from the unmodified pitches). -/
theorem C7_strict_failure (req : Req) (data : Doc) (sc : Scale)
    (h1 : schemaOk data = true)
    (h2 : scaleOf req data = some sc)
    (h3 : (clampNotes req data).filter (fun n => !inScale n.p (some sc)) ≠ []) :
    composeStep false true req data =
      .outOfScale ((clampNotes req data).filter (fun n => !inScale n.p (some sc))).length
        (defaultedDoc req data).key (defaultedDoc req data).mode := by
  have hlen : ((clampNotes req data).filter (fun n => !inScale n.p (some sc))).length ≠ 0 := by
    simpa [List.length_eq_zero] using h3
  simp only [composeStep, h1, Bool.not_true, Bool.false_eq_true, if_false, h2,
    if_true, hlen, ne_eq, not_false_iff, if_pos]

/-- Witness for C7: a C-major candidate whose single surviving note
has pitch class 1 fails with OUT_OF_SCALE and count 1. -/
theorem C7_strict_failure_witness :
    composeStep false true emptyReq docCsharp =
      .outOfScale
        ((clampNotes emptyReq docCsharp).filter
          (fun n => !inScale n.p (some scCmaj))).length
        (defaultedDoc emptyReq docCsharp).key (defaultedDoc emptyReq docCsharp).mode ∧
    ((clampNotes emptyReq docCsharp).filter
      (fun n => !inScale n.p (some scCmaj))).length = 1 ∧
    (defaultedDoc emptyReq docCsharp).key = some "C" ∧
    (defaultedDoc emptyReq docCsharp).mode = some "major" :=
  ⟨C7_strict_failure emptyReq docCsharp scCmaj (by with_unfolding_all decide)
      (by with_unfolding_all decide) (by with_unfolding_all decide),
    by with_unfolding_all decide, by with_unfolding_all decide,
    by with_unfolding_all decide⟩

/-- Claim C6, counterexample: with key C and the unrecognized mode
"phrygian", a scale IS resolvable (major fallback) and enforcement is
not a no-op: under snap the note of pitch 1 is rewritten to 0, and
under strict the route fails with OUT_OF_SCALE — contradicting the
claim that enforcement passes every pitch through unchanged and raises
no error. -/
theorem C6_counterexample :
    buildScale "C" "phrygian" ≠ none ∧
    composeStep true false emptyReq docPhry =
      .ok { time_signature := some "4/4", length_bars := some (.fin 1),
            clip_type := some "chords", key := some "C", mode := some "phrygian",
            instrument := none,
            notes := some [{ tb := .fin 0, db := .fin 1, p := .fin 0, v := .fin 1 }],
            snapped_info := some (1, "snap_to_scale") } ∧
    (JsNum.fin 0 : JsNum) ≠ .fin 1 ∧
    composeStep false true emptyReq docPhry =
      .outOfScale 1 (some "C") (some "phrygian") := by
  with_unfolding_all decide

/-- Claim C6, amended: when the key is recognized and the mode is
present but unrecognized, `buildScale` falls back to the major degree
pattern, so a scale IS resolvable and enforcement proceeds against
(key, major); enforcement is a no-op only when the key is unrecognized
or key or mode is absent/empty. -/
theorem C6_mode_fallback (key mode : String) (r : ℤ)
    (hk : List.lookup key PITCH_CLASS = some r)
    (hm : List.lookup mode.toLower MODES = none) :
    buildScale key mode =
      some { root := r, degrees := MODES_major,
             set := MODES_major.map (fun d => (r + d) % 12) } := by
  unfold buildScale
  rw [hk, hm]
  rfl

/-- Witness for the amended C6 at key "C", mode "phrygian". -/
theorem C6_mode_fallback_witness :
    buildScale "C" "phrygian" =
      some { root := 0, degrees := MODES_major,
             set := MODES_major.map (fun d => ((0 : ℤ) + d) % 12) } :=
  C6_mode_fallback "C" "phrygian" 0 (by with_unfolding_all decide)
    (by with_unfolding_all decide)

/-- Claim C5, counterexample: a candidate `length_bars` of -3 is a
non-positive number, yet the route does NOT fall back to the request's
bar count (8): `totalBeats` becomes -12 (not 32) and the output
document keeps `length_bars = -3`. -/
theorem C5_counterexample :
    totalBeatsOf emptyReq docNeg = .fin (-12) ∧
    totalBeatsOf emptyReq docNeg ≠ .fin 32 ∧
    (defaultedDoc emptyReq docNeg).length_bars = some (.fin (-3)) ∧
    (defaultedDoc emptyReq docNeg).length_bars ≠ some (reqBarsNum emptyReq) := by
  with_unfolding_all decide

/-- Claim C5, amended: the fallback to the request's bar count happens
exactly when `Number(length_bars)` is falsy (0 or NaN, which includes
absent and non-numeric values); a negative `length_bars` is truthy and
is used as-is, both in `totalBeats` and in the output document. -/
theorem C5_length_bars (req : Req) (d : Doc) :
    ((toNumber d.length_bars).truthy = false →
      totalBeatsOf req d =
        (reqBarsNum req).mul (.fin ((beatsPerBar d.time_signature : ℤ) : ℚ)) ∧
      (defaultedDoc req d).length_bars = some (reqBarsNum req)) ∧
    (∀ q : ℚ, q < 0 → d.length_bars = some (.fin q) →
      totalBeatsOf req d = .fin (q * ((beatsPerBar d.time_signature : ℤ) : ℚ)) ∧
      (defaultedDoc req d).length_bars = some (.fin q)) := by
  constructor
  · intro hfalsy
    constructor
    · simp [totalBeatsOf, jsOr, hfalsy]
    · simp [defaultedDoc, applyDefaults, jsOr, hfalsy]
  · intro q hq hlb
    have htruthy : (toNumber d.length_bars).truthy = true := by
      rw [hlb]
      simp [toNumber, JsNum.truthy]
      exact ne_of_lt hq
    constructor
    · rw [totalBeatsOf, jsOr, htruthy, hlb]
      simp [toNumber, JsNum.mul]
    · rw [defaultedDoc, applyDefaults] at *
      simp [jsOr, htruthy, hlb, toNumber]
      intro hc
      simp [JsNum.truthy] at hc
      exact absurd hc (ne_of_lt hq)

/-- Witness for the amended C5: the falsy branch at NaN (non-numeric)
`length_bars` and the negative branch at -3. -/
theorem C5_length_bars_witness :
    (totalBeatsOf emptyReq
        { docNeg with length_bars := some .nan } =
      (reqBarsNum emptyReq).mul
        (.fin ((beatsPerBar (some "4/4") : ℤ) : ℚ)) ∧
     (defaultedDoc emptyReq { docNeg with length_bars := some .nan }).length_bars =
       some (reqBarsNum emptyReq)) ∧
    (totalBeatsOf emptyReq docNeg =
      .fin ((-3) * ((beatsPerBar (some "4/4") : ℤ) : ℚ)) ∧
     (defaultedDoc emptyReq docNeg).length_bars = some (.fin (-3))) :=
  ⟨(C5_length_bars emptyReq { docNeg with length_bars := some .nan }).1
      (by with_unfolding_all decide),
   (C5_length_bars emptyReq docNeg).2 (-3) (by norm_num) (by with_unfolding_all decide)⟩

/-- Claim C2, counterexample: the candidate supplies
`clip_type: "bass"` and the request supplies `clipType: "lead"`; the
defaulting step overwrites the candidate's value with the request's
(`data.clip_type = clipType || data.clip_type || 'chords'` puts the
request value first), contradicting the claim that request values only
fill absent fields. -/
theorem C2_counterexample :
    docBass.clip_type = some "bass" ∧
    reqLead.clipType = some "lead" ∧
    (applyDefaults reqLead (reqBarsNum reqLead) docBass).clip_type = some "lead" ∧
    (applyDefaults reqLead (reqBarsNum reqLead) docBass).clip_type ≠ docBass.clip_type := by
  with_unfolding_all decide

/-- Claim C2, amended: the defaulting step preserves candidate-supplied
(truthy) values of `time_signature`, `key` and `mode`, preserves a
`length_bars` whose numeric value is truthy (nonzero, non-NaN), and
leaves `notes`, `instrument` and `_snapped_info` untouched — but
`clip_type` is the exception: a truthy request `clipType` overrides the
candidate's value. -/
theorem C2_defaults_frame (req : Req) (bars : JsNum) (d : Doc) :
    (applyDefaults req bars d).notes = d.notes ∧
    (applyDefaults req bars d).instrument = d.instrument ∧
    (applyDefaults req bars d).snapped_info = d.snapped_info ∧
    (truthyS d.time_signature = true →
      (applyDefaults req bars d).time_signature = d.time_signature) ∧
    (∀ q : ℚ, d.length_bars = some (.fin q) → q ≠ 0 →
      (applyDefaults req bars d).length_bars = d.length_bars) ∧
    (truthyS d.key = true → (applyDefaults req bars d).key = d.key) ∧
    (truthyS d.mode = true → (applyDefaults req bars d).mode = d.mode) ∧
    (truthyS req.clipType = true → (applyDefaults req bars d).clip_type = req.clipType) := by
  refine ⟨rfl, rfl, rfl, ?_, ?_, ?_, ?_, ?_⟩
  · intro h
    simp [applyDefaults, jsOrS, h]
  · intro q hlb hq
    simp [applyDefaults, jsOr, hlb, toNumber, JsNum.truthy, hq]
  · intro h
    simp [applyDefaults, h]
  · intro h
    simp [applyDefaults, h]
  · intro h
    simp [applyDefaults, jsOrS, h]

/-- Witness for the amended C2 at a fully-supplied candidate and a
request carrying `clipType: "lead"`. -/
theorem C2_defaults_frame_witness :
    (applyDefaults reqLead (reqBarsNum reqLead) docBass).time_signature =
      docBass.time_signature ∧
    (applyDefaults reqLead (reqBarsNum reqLead) docBass).length_bars =
      docBass.length_bars ∧
    (applyDefaults reqLead (reqBarsNum reqLead) docBass).notes = docBass.notes ∧
    (applyDefaults reqLead (reqBarsNum reqLead) docBass).clip_type = reqLead.clipType :=
  ⟨(C2_defaults_frame reqLead (reqBarsNum reqLead) docBass).2.2.2.1
      (by with_unfolding_all decide),
   (C2_defaults_frame reqLead (reqBarsNum reqLead) docBass).2.2.2.2.1 4
      (by with_unfolding_all decide) (by norm_num),
   (C2_defaults_frame reqLead (reqBarsNum reqLead) docBass).1,
   (C2_defaults_frame reqLead (reqBarsNum reqLead) docBass).2.2.2.2.2.2.2
      (by with_unfolding_all decide)⟩

/-- Claim C1 (code bug): a compose success can return a note whose
pitch is outside [0, 127].  With key D major under the snap policy, the
valid note of pitch 0 (in range, in time) is out of scale and
`nearestInScale` rewrites it to -1, one below the MIDI range; the route
then returns the document as a success.  The returned pitch fails the
route's own `p >= 0` admission test. -/
theorem C1_pitch_range_violated :
    composeStep true false emptyReq docC1 =
      .ok { time_signature := some "4/4", length_bars := some (.fin 4),
            clip_type := some "chords", key := some "D", mode := some "major",
            instrument := none,
            notes := some [{ tb := .fin 0, db := .fin 1, p := .fin (-1), v := .fin 1 }],
            snapped_info := some (1, "snap_to_scale") } ∧
    (JsNum.fin (-1)).jge (.fin 0) = false ∧
    noteOk (.fin 16) { tb := .fin 0, db := .fin 1, p := .fin (-1), v := .fin 1 } = false := by
  with_unfolding_all decide

/-- Claim C4, counterexample: the claim's "keeps a note iff" omits the
pitch conditions of the filter.  The note (tb 0, db 1, p 200) satisfies
every temporal condition of the claim with totalBeats 16, yet the
filter drops it because its pitch exceeds 127. -/
theorem C4_counterexample :
    noteBig.tb.isFinite = true ∧ noteBig.tb.jge (.fin 0) = true ∧
    noteBig.db.isFinite = true ∧ noteBig.db.jgt (.fin 0) = true ∧
    (noteBig.tb.add noteBig.db).jle (.fin 16) = true ∧
    noteOk (.fin 16) noteBig = false := by
  with_unfolding_all decide

/-- Claim C4, amended: `beatsPerBar` is 3 iff the time signature starts
with "3/" (4 for everything else, unrecognized values included);
`totalBeats = lengthBars * beatsPerBar` whenever `lengthBars` is a
truthy number; and a note is kept iff it has finite `tb >= 0`, finite
`db > 0`, finite pitch in [0, 127], and `tb + db <= totalBeats`
(inclusive boundary).  At time signature 4/4 with 4 bars, totalBeats is
16; the note (15, 2) is dropped and the note (15, 1) is kept. -/
theorem C4_clamp (req : Req) (d : Doc) (T : ℚ) (n : Note) :
    (∀ s : String, beatsPerBar (some s) = 3 ↔ s.startsWith "3/" = true) ∧
    (beatsPerBar d.time_signature = 3 ∨ beatsPerBar d.time_signature = 4) ∧
    (∀ q : ℚ, d.length_bars = some (.fin q) → q ≠ 0 →
      totalBeatsOf req d = .fin (q * ((beatsPerBar d.time_signature : ℤ) : ℚ))) ∧
    (noteOk (.fin T) n = true ↔
      ∃ tb db pq : ℚ, n.tb = .fin tb ∧ n.db = .fin db ∧ n.p = .fin pq ∧
        0 ≤ tb ∧ 0 < db ∧ 0 ≤ pq ∧ pq ≤ 127 ∧ tb + db ≤ T) ∧
    totalBeatsOf emptyReq docC1 = .fin 16 ∧
    noteOk (.fin 16) note15_2 = false ∧
    noteOk (.fin 16) note15_1 = true := by
  refine ⟨?_, ?_, ?_, ?_, by with_unfolding_all decide, by with_unfolding_all decide,
    by with_unfolding_all decide⟩
  · intro s
    by_cases hs : s = ""
    · subst hs
      have h1 : beatsPerBar (some "") = 4 := by with_unfolding_all decide
      have h2 : "".startsWith "3/" = false := by with_unfolding_all decide
      rw [h1, h2]
      simp
    · simp only [beatsPerBar, truthyS, ne_eq, hs, not_false_iff, decide_eq_true_eq,
        decide_eq_false_iff_not]
      by_cases h3 : s.startsWith "3/"
      · simp [h3, hs]
      · simp [h3, hs]
  · unfold beatsPerBar
    split
    · left; rfl
    · right; rfl
  · intro q hlb hq
    rw [totalBeatsOf, jsOr, hlb]
    have : (toNumber (some (JsNum.fin q))).truthy = true := by
      simp [toNumber, JsNum.truthy, hq]
    rw [this]
    simp [toNumber, JsNum.mul]
  · rcases n with ⟨tb, db, p, v⟩
    cases tb <;> cases db <;> cases p <;>
      simp [noteOk, JsNum.isFinite, JsNum.jge, JsNum.jle, JsNum.jgt, JsNum.jlt, JsNum.add,
        and_assoc]

/-- Witness for the amended C4: the clamp characterization applied at
time signature "3/4", four bars, and the kept note (15, 1). -/
theorem C4_clamp_witness :
    beatsPerBar (some "3/4") = 3 ∧
    totalBeatsOf emptyReq docC1 = .fin 16 ∧
    noteOk (.fin 16) note15_1 = true := by
  refine ⟨?_, (C4_clamp emptyReq docC1 16 note15_1).2.2.2.2.1, ?_⟩
  · exact (C4_clamp emptyReq docC1 16 note15_1).1 "3/4" |>.mpr (by with_unfolding_all decide)
  · exact (C4_clamp emptyReq docC1 16 note15_1).2.2.2.1.mpr
      ⟨15, 1, 60, rfl, rfl, rfl, by norm_num, by norm_num, by norm_num, by norm_num,
        by norm_num⟩

/-- Claim C3: `extractJson` tries its strategies in strict order,
returning on first success — (1) strip code fences and parse the whole
trimmed text, (2) parse the slice from the first brace to the last
closing brace, (3) scan left to right tracking brace depth, parsing
each block that returns the depth to zero after it was positive and
returning the first block that parses.  On the spec's example with two
top-level objects it returns the first; the empty string and garbage
fail with the extraction errors. -/
theorem C3_extract_strategies :
    (∀ (text : String) (v : Json), text ≠ "" →
      jsonParse (stripFences text) = some v → extractJson text = .ok v) ∧
    (∀ (text : String) (v : Json), text ≠ "" →
      jsonParse (stripFences text) = none →
      sliceStrategy (stripFences text).data = some v → extractJson text = .ok v) ∧
    (∀ text : String, text ≠ "" →
      jsonParse (stripFences text) = none →
      sliceStrategy (stripFences text).data = none →
      extractJson text =
        (match scanLoop (stripFences text).data (stripFences text).data 0 0 none with
         | some v => ExtractResult.ok v
         | none => ExtractResult.err "No valid JSON found")) ∧
    extractJson "noise \x7b\"a\":1\x7d trailing \x7b\"b\":2\x7d more noise" =
      .ok (.obj [("a", .num 1)]) ∧
    extractJson "" = .err "Empty response" ∧
    extractJson "no json here" = .err "No valid JSON found" := by
  refine ⟨?_, ?_, ?_, by with_unfolding_all rfl, by with_unfolding_all rfl,
    by with_unfolding_all rfl⟩
  · intro text v hne hp
    unfold extractJson
    rw [if_neg hne]
    simp only [hp]
  · intro text v hne hp hs
    unfold extractJson
    rw [if_neg hne]
    simp only [hp, hs]
  · intro text hne hp hs
    unfold extractJson
    rw [if_neg hne]
    simp only [hp, hs]

/-- Witness for C3: a fenced JSON object is recovered by strategy 1. -/
theorem C3_extract_strategies_witness :
    extractJson "```json\n\x7b\"a\":1\x7d\n```" = .ok (.obj [("a", .num 1)]) :=
  C3_extract_strategies.1 _ _ (by with_unfolding_all decide) (by with_unfolding_all rfl)
